import Mathlib

/-!
# Verification of the DialoGPS triple-sequence batch assembly engine

Shallow embedding of `fairseq/data/csda_dataset.py` (the `collate` function and
the `CSDAPairDataset` class).  Token sequences are `List Nat`, tensors of rows
are `List (List Nat)`, and Python failures (assertion errors, `KeyError`,
`AttributeError`, `NameError`, out-of-range indexing) are modelled by `Option`,
with `none` standing for a raised exception.

The padding primitive `data_utils.collate_tokens` and the stable sorting
primitives (`numpy.argsort(kind="mergesort")`, `torch.Tensor.sort`) are
external to the repository's source files; they are modelled from the spec's
description of the padding primitive and the sort steps.
-/

namespace CSDA

/-- `s[key].ne(pad_idx).long().sum()`: the number of non-pad tokens of a
sequence. -/
def countNonPad (padIdx : Nat) (v : List Nat) : Nat :=
  (v.filter (fun t => t != padIdx)).length

/-- Modelled from the spec: the final step of the padding primitive's effective
length computation — "if `padMultiple>1`, round up to the next multiple of
`padMultiple`". -/
def roundUpToMultiple (size m : Nat) : Nat :=
  if 1 < m then m * ((size + m - 1) / m) else size

/-- Modelled from the spec: the padding primitive's effective length —
"effective length = max(`targetLength` or 0, max input length)", then rounded
up to the pad multiple. -/
def effectiveSize (values : List (List Nat)) (padToLength : Option Nat)
    (padToMultiple : Nat) : Nat :=
  roundUpToMultiple (max (padToLength.getD 0) ((values.map List.length).foldr max 0))
    padToMultiple

/-- Modelled from the spec: one padded row — content "left-aligned within the
row if `leftPad` is false, right-aligned (padding occupies the row's start) if
true", the rest filled with `padIdx`. -/
def padRow (padIdx : Nat) (leftPad : Bool) (size : Nat) (content : List Nat) :
    List Nat :=
  if leftPad then List.replicate (size - content.length) padIdx ++ content
  else content ++ List.replicate (size - content.length) padIdx

/-- Modelled from the spec: the `moveEosToBeginning` rewrite — "write the
sequence's final token (expected to equal `eosIdx`) first, followed by all but
the last token in original order". -/
def moveEosRow : List Nat → List Nat
  | [] => []
  | t :: ts => (t :: ts).getLastD 0 :: (t :: ts).dropLast

/-- Modelled from the spec: the padding primitive `data_utils.collate_tokens`
(fairseq core, not among the repository's source files): pad-and-stack a list
of sequences into a rectangular array of width `effectiveSize`. -/
def collate_tokens (values : List (List Nat)) (padIdx _eosIdx : Nat)
    (leftPad moveEosToBeginning : Bool) (padToLength : Option Nat)
    (padToMultiple : Nat) : List (List Nat) :=
  values.map (fun v =>
    padRow padIdx leftPad (effectiveSize values padToLength padToMultiple)
      (if moveEosToBeginning then moveEosRow v else v))

/-- `tensor.index_select(0, order)`: row `j` of the result is row `order[j]` of
the input. -/
def indexSelect {α : Type} (rows : List α) (order : List Nat) (d : α) : List α :=
  order.map (fun i => rows.getD i d)

/-- `[f(s) for s in l]` where looking up `f` may raise (a missing dict key):
`none` models the exception. -/
def allOrNone {α β : Type} (f : α → Option β) : List α → Option (List β)
  | [] => some []
  | a :: l => (f a).bind (fun b => (allOrNone f l).map (fun r => b :: r))

/-- Modelled from the spec: `numpy.argsort(keys, kind="mergesort")` — a stable
ascending argsort of `keys`, as a permutation of `[0, keys.length)`. -/
def argsortAsc (keys : List Nat) : List Nat :=
  List.insertionSort (fun i j => keys.getD i 0 ≤ keys.getD j 0)
    (List.range keys.length)

/-- Modelled from the spec: the index permutation returned by
`torch.Tensor.sort(descending=True)`, with ties kept in input order
("sorted by `cxtLengths` descending, stable on ties"). -/
def argsortDesc (keys : List Nat) : List Nat :=
  List.insertionSort (fun i j => keys.getD j 0 ≤ keys.getD i 0)
    (List.range keys.length)

/-- One example as produced by `CSDAPairDataset.__getitem__` and consumed by
`collate`.  Optional fields model optional dict keys. -/
structure Sample where
  id : Nat
  context : List Nat
  latent : List Nat
  target : Option (List Nat)
  prevOutput : Option (List Nat)
  alignment : Option (List (Nat × Nat))
  constraints : Option (List Nat)
deriving Repr, DecidableEq, Inhabited

/-- The `pad_to_length` dictionary argument of `collate`. -/
structure PadLengths where
  context : Nat
  latent : Nat
  target : Nat
deriving Repr, DecidableEq

/-- The scalar/flag arguments of `collate`. -/
structure CollateParams where
  padIdx : Nat
  eosIdx : Nat
  leftPadSource : Bool
  leftPadTarget : Bool
  inputFeeding : Bool
  padToLength : Option PadLengths
  padToMultiple : Nat
deriving Repr, DecidableEq

/-- The batch dictionary built by `collate`. -/
structure Batch where
  id : List Nat
  nsentences : Nat
  ntokens : Nat
  cxtTokens : List (List Nat)
  cxtLengths : List Nat
  zTokens : List (List Nat)
  zLengths : List Nat
  prevOutputTokens : Option (List (List Nat))
  target : List (List Nat)
  constraints : Option (List (List Nat))
deriving Repr, DecidableEq

/-- `cxt_lengths` before sorting: per-sample non-pad token counts of the
`context` sequences, in input order. -/
def cxtKeys (padIdx : Nat) (samples : List Sample) : List Nat :=
  samples.map (fun s => countNonPad padIdx s.context)

/-- `sort_order` from `cxt_lengths.sort(descending=True)`. -/
def sortOrderOf (padIdx : Nat) (samples : List Sample) : List Nat :=
  argsortDesc (cxtKeys padIdx samples)

/-- The `prev_output_tokens` rows before the final `index_select`:
either the merged precomputed sequences (when sample 0 carries one; a missing
key on a later sample raises, hence the outer `Option`), or the
`move_eos_to_beginning` merge of the targets when `input_feeding` is set, or
absent.  `some none` means "no previous-output field". -/
def prevPre (samples : List Sample) (targets : List (List Nat))
    (p : CollateParams) : Option (Option (List (List Nat))) :=
  match samples with
  | [] => some none
  | s0 :: _ =>
    if s0.prevOutput.isSome then
      (allOrNone (fun s => s.prevOutput) samples).map (fun prevs =>
        some (collate_tokens prevs p.padIdx p.eosIdx p.leftPadTarget false none
          p.padToMultiple))
    else if p.inputFeeding then
      some (some (collate_tokens targets p.padIdx p.eosIdx p.leftPadTarget true
        (p.padToLength.map (fun q => q.target)) p.padToMultiple))
    else some none

/-- The packed `constraints` rows (lines 177-185): zero-filled rectangle of
width `max(lens)`, rows in original input order.  Only sample 0's key is
tested; a missing key on a later sample raises (`None.size(0)`). -/
def consPre (samples : List Sample) : Option (Option (List (List Nat))) :=
  match samples with
  | [] => some none
  | s0 :: _ =>
    if s0.constraints.isSome then
      (allOrNone (fun s => s.constraints) samples).map (fun cons =>
        some (cons.map (fun c =>
          c ++ List.replicate ((cons.map List.length).foldr max 0 - c.length) 0)))
    else some none

/-- The batch record assembled by `collate` once every fallible step has
succeeded: `targets` are the per-sample target sequences, `prevRowsOpt` and
`consRowsOpt` the optional pre-permutation previous-output rows and packed
constraint rows. -/
def collateCore (samples : List Sample) (targets : List (List Nat))
    (p : CollateParams) (prevRowsOpt consRowsOpt : Option (List (List Nat))) :
    Batch :=
  { id := indexSelect (samples.map (fun s => s.id)) (sortOrderOf p.padIdx samples) 0
    nsentences := samples.length
    ntokens := (indexSelect (targets.map (countNonPad p.padIdx)) (sortOrderOf p.padIdx samples) 0).sum
    cxtTokens := indexSelect
      (collate_tokens (samples.map (fun s => s.context)) p.padIdx p.eosIdx
        p.leftPadSource false (p.padToLength.map (fun q => q.context))
        p.padToMultiple) (sortOrderOf p.padIdx samples) []
    cxtLengths := indexSelect (cxtKeys p.padIdx samples) (sortOrderOf p.padIdx samples) 0
    zTokens := indexSelect
      (collate_tokens (samples.map (fun s => s.latent)) p.padIdx p.eosIdx
        p.leftPadSource false (p.padToLength.map (fun q => q.latent))
        p.padToMultiple) (sortOrderOf p.padIdx samples) []
    zLengths := indexSelect (samples.map (fun s => countNonPad p.padIdx s.latent))
      (sortOrderOf p.padIdx samples) 0
    prevOutputTokens := prevRowsOpt.map (fun rows => indexSelect rows (sortOrderOf p.padIdx samples) [])
    target := indexSelect
      (collate_tokens targets p.padIdx p.eosIdx p.leftPadTarget false
        (p.padToLength.map (fun q => q.target)) p.padToMultiple) (sortOrderOf p.padIdx samples) []
    constraints := consRowsOpt }

/-- `collate(samples, ...)`.  `none` models every raising path: the empty-batch
early return, the `assert 1 == 0` when sample 0 has no target, a `KeyError`
from a sample missing a merged key, and the dead alignment branch's
`assert 1 == 0`. -/
def collate (samples : List Sample) (p : CollateParams) : Option Batch :=
  match samples with
  | [] => none
  | s0 :: _ =>
    if s0.alignment.isSome then none
    else
      match allOrNone (fun s => s.target) samples with
      | none => none
      | some targets =>
        match prevPre samples targets p with
        | none => none
        | some prevRowsOpt =>
          match consPre samples with
          | none => none
          | some consRowsOpt =>
            some (collateCore samples targets p prevRowsOpt consRowsOpt)

/-- A fairseq `Dictionary` as consumed here: only the special ids matter. -/
structure Dictionary where
  pad : Nat
  eos : Nat
  bos : Nat
  unk : Nat
deriving Repr, DecidableEq

/-- The state of a constructed `CSDAPairDataset` (the `num_buckets = 0`
configuration; bucketing wraps the stores in the external
`BucketPadLengthDataset`, so `buckets` stays `None` here).  The three
`...SupportsPrefetch` flags model `getattr(store, "supports_prefetch", False)`
of the borrowed stores. -/
structure CSDAPairDataset where
  cxt : List (List Nat)
  z : List (List Nat)
  res : List (List Nat)
  cxtSizes : List Nat
  zSizes : List Nat
  resSizes : List Nat
  cxtDict : Dictionary
  resDict : Dictionary
  leftPadSource : Bool
  leftPadTarget : Bool
  shuffle : Bool
  inputFeeding : Bool
  removeEosFromSource : Bool
  appendEosToTarget : Bool
  alignDataset : Option (List (List (Nat × Nat)))
  constraints : Option (List (List Nat))
  appendBos : Bool
  eos : Nat
  cxtLangId : Option Nat
  zLangId : Option Nat
  resLangId : Option Nat
  padToMultiple : Nat
  cxtSupportsPrefetch : Bool
  zSupportsPrefetch : Bool
  resSupportsPrefetch : Bool
deriving Repr, DecidableEq

/-- `CSDAPairDataset.__init__` for the `num_buckets = 0` configuration.
`none` models a raised exception: the two length `assert`s, and the
`align_dataset` branch, which reads the never-assigned attribute
`self.tgt_sizes` (`AttributeError`). -/
def construct (cxt z res : List (List Nat)) (cxtSizes zSizes resSizes : List Nat)
    (cxtDict resDict : Dictionary)
    (leftPadSource leftPadTarget shuffle inputFeeding removeEosFromSource
      appendEosToTarget : Bool)
    (alignDataset : Option (List (List (Nat × Nat))))
    (constraints : Option (List (List Nat)))
    (appendBos : Bool) (eos : Option Nat)
    (cxtLangId zLangId resLangId : Option Nat) (padToMultiple : Nat)
    (cxtPF zPF resPF : Bool) : Option CSDAPairDataset :=
  if cxt.length = res.length then
    if z.length = res.length then
      if alignDataset.isSome then none
      else
        some
          { cxt := cxt, z := z, res := res
            cxtSizes := cxtSizes, zSizes := zSizes, resSizes := resSizes
            cxtDict := cxtDict, resDict := resDict
            leftPadSource := leftPadSource, leftPadTarget := leftPadTarget
            shuffle := shuffle, inputFeeding := inputFeeding
            removeEosFromSource := removeEosFromSource
            appendEosToTarget := appendEosToTarget
            alignDataset := alignDataset, constraints := constraints
            appendBos := appendBos, eos := eos.getD cxtDict.eos
            cxtLangId := cxtLangId, zLangId := zLangId, resLangId := resLangId
            padToMultiple := padToMultiple
            cxtSupportsPrefetch := cxtPF, zSupportsPrefetch := zPF
            resSupportsPrefetch := resPF }
    else none
  else none

/-- `CSDAPairDataset.__getitem__`.  `none` models a raised exception: indexing
`[-1]` into an empty sequence, and the whole `append_bos` branch, whose first
statement reads `self.h_tgt[index]` — the attribute `h_tgt` is never assigned
anywhere in the class, so the branch raises `AttributeError` unconditionally.
Each transform re-reads the raw stored sequence (e.g. the eos-removal branch
assigns `self.cxt[index][:-1]`), exactly as the Python does. -/
def getItem (ds : CSDAPairDataset) (index : Nat) : Option Sample :=
  let cxt0 := ds.cxt.getD index []
  let z0 := ds.z.getD index []
  let res0 := ds.res.getD index []
  let resItemOpt : Option (List Nat) :=
    if ds.appendEosToTarget then
      match res0.getLast? with
      | none => none
      | some t => some (if t != ds.resDict.eos then res0 ++ [ds.resDict.eos] else res0)
    else some res0
  match resItemOpt with
  | none => none
  | some resItem =>
    if ds.appendBos then none
    else
      let cxtItemOpt : Option (List Nat) :=
        if ds.removeEosFromSource then
          match cxt0.getLast? with
          | none => none
          | some t => some (if t = ds.cxtDict.eos then cxt0.dropLast else cxt0)
        else some cxt0
      let zItemOpt : Option (List Nat) :=
        if ds.removeEosFromSource then
          match z0.getLast? with
          | none => none
          | some t => some (if t = ds.cxtDict.eos then z0.dropLast else z0)
        else some z0
      match cxtItemOpt, zItemOpt with
      | some cxtItem, some zItem =>
        some
          { id := index, context := cxtItem, latent := zItem
            target := some resItem, prevOutput := none
            alignment := ds.alignDataset.map (fun a => a.getD index [])
            constraints := ds.constraints.map (fun c => c.getD index []) }
      | _, _ => none

/-- `CSDAPairDataset.num_tokens`. -/
def num_tokens (ds : CSDAPairDataset) (index : Nat) : Nat :=
  max (max (ds.cxtSizes.getD index 0) (ds.zSizes.getD index 0))
    (max (ds.cxtSizes.getD index 0) (ds.resSizes.getD index 0))

/-- `CSDAPairDataset.size`. -/
def sizeTriple (ds : CSDAPairDataset) (index : Nat) : Nat × Nat × Nat :=
  (ds.cxtSizes.getD index 0, ds.zSizes.getD index 0, ds.resSizes.getD index 0)

/-- One pass `indices = indices[np.argsort(sizes[indices], kind="mergesort")]`
of `ordered_indices`. -/
def sortPass (indices sizes : List Nat) : List Nat :=
  indexSelect indices (argsortAsc (indices.map (fun i => sizes.getD i 0))) 0

/-- `CSDAPairDataset.ordered_indices` in the `buckets = None` branch.  `start`
is the initial order: `np.random.permutation(len(self))` when `shuffle` is
set (modelled as an arbitrary permutation of the index range), else
`np.arange(len(self))`. -/
def orderedIndicesFrom (ds : CSDAPairDataset) (start : List Nat) : List Nat :=
  sortPass (sortPass (sortPass start ds.resSizes) ds.zSizes) ds.cxtSizes

/-- `CSDAPairDataset.supports_prefetch`. -/
def supportsPrefetch (ds : CSDAPairDataset) : Bool :=
  ds.cxtSupportsPrefetch && ds.zSupportsPrefetch && ds.resSupportsPrefetch

/-- `CSDAPairDataset.prefetch`: its first statement is `assert 1 == 0`, so it
raises on every call, before touching any store. -/
def prefetch (_ds : CSDAPairDataset) (_indices : List Nat) : Option Unit :=
  none

/-- The `CollateParams` that `CSDAPairDataset.collater` passes to `collate`. -/
def collaterParams (ds : CSDAPairDataset) (padToLength : Option PadLengths) :
    CollateParams :=
  { padIdx := ds.cxtDict.pad, eosIdx := ds.eos
    leftPadSource := ds.leftPadSource, leftPadTarget := ds.leftPadTarget
    inputFeeding := ds.inputFeeding, padToLength := padToLength
    padToMultiple := ds.padToMultiple }

/-- `CSDAPairDataset.collater`: delegates to `collate`; if any of the three
language ids is configured, the first statement of that block reads the
undefined name `res` (`res["net_input"]["cxt_tokens"]`), raising `NameError`
before any language-id field can be attached — modelled by `none`. -/
def collater (ds : CSDAPairDataset) (samples : List Sample)
    (padToLength : Option PadLengths) : Option Batch :=
  match collate samples (collaterParams ds padToLength) with
  | none => none
  | some result =>
    if ds.cxtLangId.isSome || ds.zLangId.isSome || ds.resLangId.isSome then none
    else some result

/-- The effective padded width of the stacked context rows of a batch. -/
def cxtWidth (samples : List Sample) (p : CollateParams) : Nat :=
  effectiveSize (samples.map (fun s => s.context))
    (p.padToLength.map (fun q => q.context)) p.padToMultiple

/-- The effective padded width of the stacked latent rows of a batch. -/
def zWidth (samples : List Sample) (p : CollateParams) : Nat :=
  effectiveSize (samples.map (fun s => s.latent))
    (p.padToLength.map (fun q => q.latent)) p.padToMultiple

/-- The effective padded width of the stacked target rows of a batch. -/
def tgtWidth (targets : List (List Nat)) (p : CollateParams) : Nat :=
  effectiveSize targets (p.padToLength.map (fun q => q.target)) p.padToMultiple

/-- `max(lens)` over the per-sample constraint lists of a batch. -/
def maxConsLen (samples : List Sample) : Nat :=
  ((samples.map (fun s => s.constraints.getD [])).map List.length).foldr max 0

/-- A sample carrying only the three mandatory streams. -/
def mkSample (i : Nat) (cxt z tgt : List Nat) : Sample :=
  { id := i, context := cxt, latent := z, target := some tgt
    prevOutput := none, alignment := none, constraints := none }

/-- A sample that additionally carries a constraints list. -/
def mkSampleC (i : Nat) (cxt z tgt cons : List Nat) : Sample :=
  { id := i, context := cxt, latent := z, target := some tgt
    prevOutput := none, alignment := none, constraints := some cons }

/-- A dictionary with pad = 1, eos = 2, bos = 0, unk = 3 (fairseq defaults). -/
def exDict : Dictionary :=
  { pad := 1, eos := 2, bos := 0, unk := 3 }

/-- Default collate arguments used by the concrete checks. -/
def exParams : CollateParams :=
  { padIdx := 1, eosIdx := 2, leftPadSource := false, leftPadTarget := false
    inputFeeding := true, padToLength := none, padToMultiple := 1 }

/-- Three samples with context lengths 2, 3, 2: descending stable sort order
is `[1, 0, 2]`. -/
def c1samples : List Sample :=
  [mkSample 0 [4, 2] [5, 2] [7, 2],
   mkSample 1 [4, 4, 2] [5, 5, 2] [7, 7, 2],
   mkSample 2 [6, 2] [5, 2] [7, 2]]

/-- The batch `collate` builds from `c1samples`. -/
def c1batch : Batch :=
  (collate c1samples exParams).getD
    { id := [], nsentences := 0, ntokens := 0, cxtTokens := [], cxtLengths := []
      zTokens := [], zLengths := [], prevOutputTokens := none, target := []
      constraints := none }

/-- Two samples with unpadded target lengths 5 and 3 (the spec's `ntokens`
example). -/
def c2samples : List Sample :=
  [mkSample 0 [4, 2] [5, 2] [7, 7, 7, 7, 2],
   mkSample 1 [4, 4, 2] [5, 2] [7, 7, 2]]

/-- The batch `collate` builds from `c2samples`. -/
def c2batch : Batch :=
  (collate c2samples exParams).getD
    { id := [], nsentences := 0, ntokens := 0, cxtTokens := [], cxtLengths := []
      zTokens := [], zLengths := [], prevOutputTokens := none, target := []
      constraints := none }

/-- The spec's `orderedIndices` example: sizes `cxt=[3,1,2]`, `z=[9,9,9]`,
`res=[5,5,5]`, no bucketing, no shuffle. -/
def c3dataset : CSDAPairDataset :=
  { cxt := [[0], [0], [0]], z := [[0], [0], [0]], res := [[0], [0], [0]]
    cxtSizes := [3, 1, 2], zSizes := [9, 9, 9], resSizes := [5, 5, 5]
    cxtDict := exDict, resDict := exDict
    leftPadSource := false, leftPadTarget := false, shuffle := false
    inputFeeding := true, removeEosFromSource := false
    appendEosToTarget := false, alignDataset := none, constraints := none
    appendBos := false, eos := 2, cxtLangId := none, zLangId := none
    resLangId := none, padToMultiple := 1, cxtSupportsPrefetch := true
    zSupportsPrefetch := true, resSupportsPrefetch := true }

/-- A dataset with `append_bos = True`: every `__getitem__` call reaches the
read of the never-assigned attribute `self.h_tgt`. -/
def c4dataset : CSDAPairDataset :=
  { cxt := [[5, 2]], z := [[6, 2]], res := [[7, 2]]
    cxtSizes := [2], zSizes := [2], resSizes := [2]
    cxtDict := exDict, resDict := exDict
    leftPadSource := false, leftPadTarget := false, shuffle := false
    inputFeeding := true, removeEosFromSource := false
    appendEosToTarget := true, alignDataset := none, constraints := none
    appendBos := true, eos := 2, cxtLangId := none, zLangId := none
    resLangId := none, padToMultiple := 1, cxtSupportsPrefetch := false
    zSupportsPrefetch := false, resSupportsPrefetch := false }

/-- Two samples both carrying constraints, with context lengths 2 and 3 so
that `sort_order = [1, 0]` differs from the input order. -/
def c5samples : List Sample :=
  [mkSampleC 0 [4, 2] [5, 2] [7, 2] [8, 0, 9],
   mkSampleC 1 [4, 4, 2] [5, 2] [7, 2] [8]]

/-- The batch `collate` builds from `c5samples`. -/
def c5batch : Batch :=
  (collate c5samples exParams).getD
    { id := [], nsentences := 0, ntokens := 0, cxtTokens := [], cxtLengths := []
      zTokens := [], zLengths := [], prevOutputTokens := none, target := []
      constraints := none }

/-- Collate arguments with `eosIdx = 9` for the `moveEosToBeginning`
example. -/
def c6params : CollateParams :=
  { padIdx := 1, eosIdx := 9, leftPadSource := false, leftPadTarget := false
    inputFeeding := true, padToLength := none, padToMultiple := 1 }

/-- One sample whose target is `[4, 7, 2, eos]` with `eos = 9`. -/
def c6samples : List Sample :=
  [mkSample 0 [4, 9] [5, 9] [4, 7, 2, 9]]

/-- The batch `collate` builds from `c6samples`. -/
def c6batch : Batch :=
  (collate c6samples c6params).getD
    { id := [], nsentences := 0, ntokens := 0, cxtTokens := [], cxtLengths := []
      zTokens := [], zLengths := [], prevOutputTokens := none, target := []
      constraints := none }

/-- A dataset with a configured context-stream language id. -/
def c9dataset : CSDAPairDataset :=
  { cxt := [[5, 2]], z := [[6, 2]], res := [[7, 2]]
    cxtSizes := [2], zSizes := [2], resSizes := [2]
    cxtDict := exDict, resDict := exDict
    leftPadSource := false, leftPadTarget := false, shuffle := false
    inputFeeding := true, removeEosFromSource := false
    appendEosToTarget := false, alignDataset := none, constraints := none
    appendBos := false, eos := 2, cxtLangId := some 7, zLangId := none
    resLangId := none, padToMultiple := 1, cxtSupportsPrefetch := false
    zSupportsPrefetch := false, resSupportsPrefetch := false }

/-- A dataset whose three stores all report prefetch support. -/
def c10dataset : CSDAPairDataset :=
  { cxt := [[5, 2]], z := [[6, 2]], res := [[7, 2]]
    cxtSizes := [2], zSizes := [2], resSizes := [2]
    cxtDict := exDict, resDict := exDict
    leftPadSource := false, leftPadTarget := false, shuffle := false
    inputFeeding := true, removeEosFromSource := false
    appendEosToTarget := false, alignDataset := none, constraints := none
    appendBos := false, eos := 2, cxtLangId := none, zLangId := none
    resLangId := none, padToMultiple := 1, cxtSupportsPrefetch := true
    zSupportsPrefetch := true, resSupportsPrefetch := true }

/-! ## Helper lemmas -/

/-- Inserting `a` into a list that is pairwise "`le`, with ties ordered by
`R`" keeps that shape, provided `a` is `R`-before every element of the
list. -/
theorem orderedInsert_pairwise_stable {α : Type} (le : α → α → Prop)
    [DecidableRel le] (R : α → α → Prop)
    (htot : ∀ a b, le a b ∨ le b a)
    (htrans : ∀ a b c, le a b → le b c → le a c) (a : α) :
    ∀ m : List α, m.Pairwise (fun x y => le x y ∧ (le y x → R x y)) →
      (∀ x ∈ m, R a x) →
      (List.orderedInsert le a m).Pairwise (fun x y => le x y ∧ (le y x → R x y)) := by
  intro m
  induction m with
  | nil => intro _ _; simp
  | cons b m ih =>
    intro hp ha
    rcases List.pairwise_cons.mp hp with ⟨hb, hm⟩
    simp only [List.orderedInsert]
    by_cases hab : le a b
    · rw [if_pos hab]
      refine List.pairwise_cons.mpr ⟨?_, hp⟩
      intro x hx
      rcases List.mem_cons.mp hx with rfl | hx
      · exact ⟨hab, fun _ => ha x (List.mem_cons_self x m)⟩
      · exact ⟨htrans a b x hab (hb x hx).1, fun _ => ha x (List.mem_cons_of_mem b hx)⟩
    · rw [if_neg hab]
      have hba : le b a := (htot a b).resolve_left hab
      refine List.pairwise_cons.mpr
        ⟨?_, ih hm (fun x hx => ha x (List.mem_cons_of_mem b hx))⟩
      intro x hx
      rcases (List.mem_orderedInsert le).mp hx with rfl | hx
      · exact ⟨hba, fun h => absurd h hab⟩
      · exact hb x hx

/-- Stability of `List.insertionSort` for a total transitive `le`: the output
is pairwise `le`, and pairs that compare equal keep the relative order `R`
they had in the input. -/
theorem insertionSort_pairwise_stable {α : Type} (le : α → α → Prop)
    [DecidableRel le] (R : α → α → Prop)
    (htot : ∀ a b, le a b ∨ le b a)
    (htrans : ∀ a b c, le a b → le b c → le a c) :
    ∀ l : List α, l.Pairwise R →
      (List.insertionSort le l).Pairwise (fun x y => le x y ∧ (le y x → R x y)) := by
  intro l
  induction l with
  | nil => intro _; simp
  | cons a l ih =>
    intro hp
    rcases List.pairwise_cons.mp hp with ⟨ha, hl⟩
    simp only [List.insertionSort]
    exact orderedInsert_pairwise_stable le R htot htrans a _ (ih hl)
      (fun x hx => ha x ((List.perm_insertionSort le l).mem_iff.mp hx))

/-- `getD` through `map` at an in-range index. -/
theorem getD_map_lt {α β : Type} (f : α → β) (l : List α) {i : Nat}
    (hi : i < l.length) (d : β) (dv : α) :
    (l.map f).getD i d = f (l.getD i dv) := by
  have hi2 : i < (l.map f).length := by rw [List.length_map]; exact hi
  rw [List.getD_eq_getElem _ _ hi2, List.getD_eq_getElem _ _ hi, List.getElem_map]

/-- Reading every position of a list back in order reproduces the list. -/
theorem map_getD_range {α : Type} (l : List α) (d : α) :
    (List.range l.length).map (fun i => l.getD i d) = l := by
  induction l with
  | nil => rfl
  | cons a t ih =>
    rw [List.length_cons, List.range_succ_eq_map, List.map_cons, List.map_map]
    simp only [Function.comp_def, List.getD_cons_zero, Nat.succ_eq_add_one,
      List.getD_cons_succ]
    rw [ih]

/-- `index_select` of a mapped list, when every selected index is in range. -/
theorem indexSelect_map {α β : Type} (f : α → β) (l : List α) (so : List Nat)
    (d : β) (dv : α) (h : ∀ i ∈ so, i < l.length) :
    indexSelect (l.map f) so d = so.map (fun i => f (l.getD i dv)) := by
  unfold indexSelect
  exact List.map_congr_left (fun i hi => getD_map_lt f l (h i hi) d dv)

/-- Selecting along a permutation of the whole index range preserves sums. -/
theorem indexSelect_sum (l : List Nat) (so : List Nat)
    (h : so.Perm (List.range l.length)) :
    (indexSelect l so 0).sum = l.sum := by
  unfold indexSelect
  have h2 := h.map (fun i => l.getD i 0)
  rw [h2.sum_eq, map_getD_range]

/-- A successful `allOrNone` is the pointwise `getD` image. -/
theorem allOrNone_some {α β : Type} (f : α → Option β) (d : β) :
    ∀ {l : List α} {r : List β}, allOrNone f l = some r →
      r = l.map (fun a => (f a).getD d) := by
  intro l
  induction l with
  | nil =>
    intro r h
    simp only [allOrNone] at h
    simp [← Option.some.inj h]
  | cons a t ih =>
    intro r h
    simp only [allOrNone] at h
    cases hfa : f a with
    | none => rw [hfa] at h; simp at h
    | some b =>
      rw [hfa] at h
      cases hrt : allOrNone f t with
      | none => rw [hrt] at h; simp at h
      | some rt =>
        rw [hrt] at h
        have hr : b :: rt = r := Option.some.inj (by simpa using h)
        rw [← hr, List.map_cons, hfa]
        exact congrArg (List.cons b) (ih hrt)

/-- `allOrNone` succeeds when every element is present. -/
theorem allOrNone_of_all_isSome {α β : Type} (f : α → Option β) (d : β) :
    ∀ l : List α, (∀ a ∈ l, (f a).isSome) →
      allOrNone f l = some (l.map (fun a => (f a).getD d)) := by
  intro l
  induction l with
  | nil => intro _; rfl
  | cons a t ih =>
    intro h
    obtain ⟨b, hb⟩ := Option.isSome_iff_exists.mp (h a (List.mem_cons_self a t))
    simp only [allOrNone]
    rw [hb, ih (fun x hx => h x (List.mem_cons_of_mem a hx)), List.map_cons, hb]
    rfl

/-- Every element of a list is bounded by its `foldr max 0`. -/
theorem le_foldr_max (a : Nat) : ∀ l : List Nat, a ∈ l → a ≤ l.foldr max 0 := by
  intro l
  induction l with
  | nil => intro h; cases h
  | cons b t ih =>
    intro h
    rcases List.mem_cons.mp h with rfl | h
    · exact Nat.le_max_left a (t.foldr max 0)
    · exact Nat.le_trans (ih h) (Nat.le_max_right b (t.foldr max 0))

/-- The descending argsort is a permutation of the index range. -/
theorem argsortDesc_perm (keys : List Nat) :
    (argsortDesc keys).Perm (List.range keys.length) :=
  List.perm_insertionSort _ _

/-- Members of the descending argsort are in-range indices. -/
theorem argsortDesc_mem_lt (keys : List Nat) :
    ∀ i ∈ argsortDesc keys, i < keys.length := by
  intro i hi
  exact List.mem_range.mp ((argsortDesc_perm keys).mem_iff.mp hi)

/-- The descending argsort sorts keys descending and keeps ties in input
order. -/
theorem argsortDesc_pairwise (keys : List Nat) :
    (argsortDesc keys).Pairwise (fun i j =>
      keys.getD j 0 ≤ keys.getD i 0 ∧ (keys.getD i 0 ≤ keys.getD j 0 → i < j)) :=
  insertionSort_pairwise_stable (fun i j => keys.getD j 0 ≤ keys.getD i 0)
    (fun i j => i < j)
    (fun a b => Nat.le_total (keys.getD b 0) (keys.getD a 0))
    (fun _ _ _ hab hbc => Nat.le_trans hbc hab)
    (List.range keys.length) (List.pairwise_lt_range keys.length)

/-- The ascending argsort is a permutation of the index range. -/
theorem argsortAsc_perm (keys : List Nat) :
    (argsortAsc keys).Perm (List.range keys.length) :=
  List.perm_insertionSort _ _

/-- Members of the ascending argsort are in-range indices. -/
theorem argsortAsc_mem_lt (keys : List Nat) :
    ∀ i ∈ argsortAsc keys, i < keys.length := by
  intro i hi
  exact List.mem_range.mp ((argsortAsc_perm keys).mem_iff.mp hi)

/-- The ascending argsort sorts keys ascending and keeps ties in input
order. -/
theorem argsortAsc_pairwise (keys : List Nat) :
    (argsortAsc keys).Pairwise (fun i j =>
      keys.getD i 0 ≤ keys.getD j 0 ∧ (keys.getD j 0 ≤ keys.getD i 0 → i < j)) :=
  insertionSort_pairwise_stable (fun i j => keys.getD i 0 ≤ keys.getD j 0)
    (fun i j => i < j)
    (fun a b => Nat.le_total (keys.getD a 0) (keys.getD b 0))
    (fun _ _ _ hab hbc => Nat.le_trans hab hbc)
    (List.range keys.length) (List.pairwise_lt_range keys.length)

/-- `sort_order` is a permutation of `[0, B)`. -/
theorem sortOrderOf_perm (padIdx : Nat) (samples : List Sample) :
    (sortOrderOf padIdx samples).Perm (List.range samples.length) := by
  have h := argsortDesc_perm (cxtKeys padIdx samples)
  have hlen : (cxtKeys padIdx samples).length = samples.length := by
    rw [cxtKeys, List.length_map]
  rw [hlen] at h
  exact h

/-- Members of `sort_order` are in-range batch positions. -/
theorem sortOrderOf_mem_lt (padIdx : Nat) (samples : List Sample) :
    ∀ i ∈ sortOrderOf padIdx samples, i < samples.length := by
  intro i hi
  exact List.mem_range.mp ((sortOrderOf_perm padIdx samples).mem_iff.mp hi)

/-- One `ordered_indices` pass permutes its input. -/
theorem sortPass_perm (indices sizes : List Nat) :
    (sortPass indices sizes).Perm indices := by
  unfold sortPass indexSelect
  have h := (argsortAsc_perm (indices.map (fun i => sizes.getD i 0))).map
    (fun i => indices.getD i 0)
  rw [List.length_map] at h
  refine h.trans ?_
  rw [map_getD_range]

/-- One `ordered_indices` pass is a stable ascending sort by the given size
array: the output is pairwise "size strictly less, or size equal and the old
pairwise order `R` preserved". -/
theorem sortPass_pairwise {R : Nat → Nat → Prop} (indices sizes : List Nat)
    (h : indices.Pairwise R) :
    (sortPass indices sizes).Pairwise (fun a b =>
      sizes.getD a 0 < sizes.getD b 0 ∨
        (sizes.getD a 0 = sizes.getD b 0 ∧ R a b)) := by
  unfold sortPass indexSelect
  rw [List.pairwise_map]
  have hkey := argsortAsc_pairwise (indices.map (fun i => sizes.getD i 0))
  refine List.Pairwise.imp_of_mem ?_ hkey
  intro p q hp hq hpq
  have hp2 : p < indices.length := by
    have := argsortAsc_mem_lt _ p hp
    rwa [List.length_map] at this
  have hq2 : q < indices.length := by
    have := argsortAsc_mem_lt _ q hq
    rwa [List.length_map] at this
  rcases hpq with ⟨hle, hstab⟩
  rw [getD_map_lt _ _ hp2 0 0, getD_map_lt _ _ hq2 0 0] at hle hstab
  rcases Nat.lt_or_ge (sizes.getD (indices.getD p 0) 0)
      (sizes.getD (indices.getD q 0) 0) with hlt | hge
  · exact Or.inl hlt
  · have heq := Nat.le_antisymm hle hge
    have hpq2 : p < q := hstab hge
    have hR := List.pairwise_iff_getElem.mp h p q hp2 hq2 hpq2
    rw [← List.getD_eq_getElem indices 0 hp2, ← List.getD_eq_getElem indices 0 hq2] at hR
    exact Or.inr ⟨heq, hR⟩

/-- `collate_tokens` without `moveEosToBeginning` is a plain pad-and-stack. -/
theorem collate_tokens_plain (values : List (List Nat)) (padIdx eos : Nat)
    (leftPad : Bool) (ptl : Option Nat) (ptm : Nat) :
    collate_tokens values padIdx eos leftPad false ptl ptm =
      values.map (fun v => padRow padIdx leftPad (effectiveSize values ptl ptm) v) := by
  simp [collate_tokens]

/-- `collate_tokens` with `moveEosToBeginning` rotates each row first. -/
theorem collate_tokens_moveEos (values : List (List Nat)) (padIdx eos : Nat)
    (leftPad : Bool) (ptl : Option Nat) (ptm : Nat) :
    collate_tokens values padIdx eos leftPad true ptl ptm =
      values.map (fun v =>
        padRow padIdx leftPad (effectiveSize values ptl ptm) (moveEosRow v)) := by
  simp [collate_tokens]

/-- Inversion of a successful `collate`: every fallible step succeeded and
the batch is `collateCore` of their results. -/
theorem collate_some_elim {samples : List Sample} {p : CollateParams} {b : Batch}
    (hb : collate samples p = some b) :
    ∃ targets prevRowsOpt consRowsOpt,
      allOrNone (fun s => s.target) samples = some targets ∧
      prevPre samples targets p = some prevRowsOpt ∧
      consPre samples = some consRowsOpt ∧
      b = collateCore samples targets p prevRowsOpt consRowsOpt := by
  cases samples with
  | nil => simp [collate] at hb
  | cons s0 rest =>
    simp only [collate] at hb
    split at hb
    · simp at hb
    · split at hb
      · simp at hb
      · rename_i targets ht
        split at hb
        · simp at hb
        · rename_i prevRowsOpt hprev
          split at hb
          · simp at hb
          · rename_i consRowsOpt hcons
            exact ⟨targets, prevRowsOpt, consRowsOpt, ht, hprev, hcons,
              (Option.some.inj hb).symm⟩

/-! ## Claim theorems -/

/-- C8: for every index, `num_tokens` — written in the source as
`max(max(cxtLen, zLen), max(cxtLen, resLen))`, never comparing the latent
size to the response size directly — equals the maximum of the three
per-stream sizes read from the stored size index. -/
theorem num_tokens_eq_three_way_max (ds : CSDAPairDataset) (index : Nat) :
    num_tokens ds index =
      max (ds.cxtSizes.getD index 0)
        (max (ds.zSizes.getD index 0) (ds.resSizes.getD index 0)) := by
  unfold num_tokens
  generalize ds.cxtSizes.getD index 0 = a
  generalize ds.zSizes.getD index 0 = b
  generalize ds.resSizes.getD index 0 = c
  omega

/-- C10: `prefetch` begins with `assert 1 == 0`, so it fails on every call
and every dataset — in particular also when `supports_prefetch` is true,
which holds exactly when all three underlying stores report prefetch
support. -/
theorem prefetch_always_asserts (ds : CSDAPairDataset) (indices : List Nat) :
    prefetch ds indices = none ∧
      (supportsPrefetch ds = true ↔
        ds.cxtSupportsPrefetch = true ∧ ds.zSupportsPrefetch = true ∧
          ds.resSupportsPrefetch = true) := by
  refine ⟨rfl, ?_⟩
  unfold supportsPrefetch
  simp [Bool.and_eq_true, and_assoc]

/-- C10 witness: a dataset whose stores all support prefetch still has
`prefetch` fail. -/
theorem prefetch_always_asserts_witness :
    prefetch c10dataset [0] = none ∧ supportsPrefetch c10dataset = true :=
  ⟨(prefetch_always_asserts c10dataset [0]).1,
    (prefetch_always_asserts c10dataset [0]).2.mpr (by decide)⟩

/-- C7: `__init__` asserts `len(cxt) == len(res)` and `len(z) == len(res)`:
construction fails whenever the three stores' lengths differ, and every
successfully constructed dataset has stores of equal length. -/
theorem construct_length_validation (cxt z res : List (List Nat))
    (cxtSizes zSizes resSizes : List Nat) (cxtDict resDict : Dictionary)
    (lps lpt sh ifeed reos aeos : Bool)
    (align : Option (List (List (Nat × Nat)))) (cons : Option (List (List Nat)))
    (abos : Bool) (eos : Option Nat) (cl zl rl : Option Nat) (ptm : Nat)
    (cpf zpf rpf : Bool) :
    (¬(cxt.length = res.length ∧ z.length = res.length) →
      construct cxt z res cxtSizes zSizes resSizes cxtDict resDict lps lpt sh
        ifeed reos aeos align cons abos eos cl zl rl ptm cpf zpf rpf = none) ∧
    (∀ ds, construct cxt z res cxtSizes zSizes resSizes cxtDict resDict lps lpt
        sh ifeed reos aeos align cons abos eos cl zl rl ptm cpf zpf rpf =
          some ds →
      ds.cxt.length = ds.res.length ∧ ds.z.length = ds.res.length) := by
  constructor
  · intro h
    unfold construct
    by_cases h1 : cxt.length = res.length
    · rw [if_pos h1]
      by_cases h2 : z.length = res.length
      · exact absurd ⟨h1, h2⟩ h
      · rw [if_neg h2]
    · rw [if_neg h1]
  · intro ds h
    unfold construct at h
    by_cases h1 : cxt.length = res.length
    · rw [if_pos h1] at h
      by_cases h2 : z.length = res.length
      · rw [if_pos h2] at h
        by_cases h3 : align.isSome
        · rw [if_pos h3] at h
          simp at h
        · rw [if_neg h3] at h
          rw [← Option.some.inj h]
          exact ⟨h1, h2⟩
      · rw [if_neg h2] at h
        simp at h
    · rw [if_neg h1] at h
      simp at h

/-- C7 witness: three stores of lengths 1, 0, 0 make construction fail. -/
theorem construct_length_validation_witness :
    construct [[1]] [] [] [1] [] [] exDict exDict false false false false false
      false none none false none none none none 1 false false false = none :=
  (construct_length_validation [[1]] [] [] [1] [] [] exDict exDict false false
    false false false false none none false none none none none 1 false false
    false).1 (by decide)

/-- C4: the code evaluated at the failing input.  The claim says `get` with
`appendBos` set prepends bos to context, latent and target; the code's
`append_bos` branch first reads `self.h_tgt[index]`, an attribute never
assigned anywhere in the class, so every `get` on a dataset with
`append_bos = True` raises `AttributeError` instead of returning an
example. -/
theorem getItem_appendBos_raises :
    c4dataset.appendBos = true ∧ getItem c4dataset 0 = none := by
  constructor
  · rfl
  · decide

/-- C9: the code evaluated at the failing input.  The claim says a configured
language id is broadcast as a `B×1` field of the returned batch; the
language-id block of `collater` begins with `res["net_input"]["cxt_tokens"]`
where the name `res` is undefined, so once any language id is configured the
call raises `NameError` — even though the underlying `collate` succeeds on
the same samples. -/
theorem collater_langId_raises :
    c9dataset.cxtLangId = some 7 ∧
      (collate [mkSample 0 [4, 2] [5, 2] [7, 2]]
        (collaterParams c9dataset none)).isSome = true ∧
      collater c9dataset [mkSample 0 [4, 2] [5, 2] [7, 2]] none = none := by
  refine ⟨rfl, by decide, ?_⟩
  decide

/-- C2: for every non-empty batch of targeted samples accepted by `collate`,
`ntokens` equals the exact sum over the batch of the non-pad token counts of
the unpadded per-sample targets — independent of padded width,
`pad_to_length`, `pad_to_multiple`, and the sort order (the right-hand side
mentions none of them and is in input order). -/
theorem collate_ntokens_exact (samples : List Sample) (p : CollateParams)
    (b : Batch) (_hne : samples ≠ []) (hb : collate samples p = some b) :
    b.ntokens =
      (samples.map (fun s => countNonPad p.padIdx (s.target.getD []))).sum := by
  obtain ⟨targets, prevR, consR, ht, hprev, hcons, hbc⟩ := collate_some_elim hb
  subst hbc
  have htl : targets = samples.map (fun s => (s.target).getD []) :=
    allOrNone_some (fun s : Sample => s.target) [] ht
  simp only [collateCore]
  have hlen : (targets.map (countNonPad p.padIdx)).length = samples.length := by
    rw [List.length_map, htl, List.length_map]
  have hperm : (sortOrderOf p.padIdx samples).Perm
      (List.range (targets.map (countNonPad p.padIdx)).length) := by
    rw [hlen]
    exact sortOrderOf_perm p.padIdx samples
  rw [indexSelect_sum _ _ hperm, htl, List.map_map]
  rfl

/-- C2 witness: unpadded target lengths 5 and 3 give `ntokens = 8`. -/
theorem collate_ntokens_exact_witness : c2batch.ntokens = 8 := by
  have h := collate_ntokens_exact c2samples exParams c2batch (by decide) (by decide)
  rw [h]
  decide

/-- C5: when every sample carries constraints, the batch packs them into a
rectangle of `B` rows of width `max(lens)`, each row the sample's constraint
list left-aligned and zero-filled, with row `j` belonging to input sample `j`
— original input order, not permuted by `sort_order`. -/
theorem collate_constraints_original_order (samples : List Sample)
    (p : CollateParams) (b : Batch) (hne : samples ≠ [])
    (hall : ∀ s ∈ samples, s.constraints.isSome)
    (hb : collate samples p = some b) :
    ∃ rows, b.constraints = some rows ∧
      rows.length = samples.length ∧
      (∀ j, j < samples.length →
        rows.getD j [] = (samples.getD j default).constraints.getD [] ++
          List.replicate
            (maxConsLen samples -
              ((samples.getD j default).constraints.getD []).length) 0) ∧
      (∀ row ∈ rows, row.length = maxConsLen samples) := by
  obtain ⟨targets, prevR, consR, ht, hprev, hcons, hbc⟩ := collate_some_elim hb
  subst hbc
  rcases samples with _ | ⟨s0, rest⟩
  · exact absurd rfl hne
  · simp only [consPre] at hcons
    rw [if_pos (hall s0 (List.mem_cons_self s0 rest))] at hcons
    rw [allOrNone_of_all_isSome (fun s : Sample => s.constraints) [] _ hall]
      at hcons
    simp only [Option.map_some'] at hcons
    set cons := (s0 :: rest).map (fun s : Sample => s.constraints.getD [])
      with hconsdef
    refine ⟨cons.map (fun c =>
      c ++ List.replicate ((cons.map List.length).foldr max 0 - c.length) 0),
      ?_, ?_, ?_, ?_⟩
    · simp only [collateCore]
      rw [← Option.some.inj hcons]
    · rw [List.length_map, hconsdef, List.length_map]
    · intro j hj
      have hj2 : j < cons.length := by
        rw [hconsdef, List.length_map]; exact hj
      rw [getD_map_lt _ cons hj2 [] [],
        hconsdef, getD_map_lt _ (s0 :: rest) hj [] default]
      rfl
    · intro row hrow
      obtain ⟨c, hc, hceq⟩ := List.mem_map.mp hrow
      have hle : c.length ≤ (cons.map List.length).foldr max 0 :=
        le_foldr_max c.length _ (List.mem_map_of_mem List.length hc)
      rw [← hceq, List.length_append, List.length_replicate]
      have : maxConsLen (s0 :: rest) = (cons.map List.length).foldr max 0 := rfl
      rw [this]
      omega

/-- C5 witness: `collate` on two constraint-carrying samples whose sort order
is `[1, 0]` while the packed constraints stay in input order. -/
theorem collate_constraints_original_order_witness :
    c5batch.constraints = some [[8, 0, 9], [8, 0, 0]] ∧
      sortOrderOf exParams.padIdx c5samples = [1, 0] := by
  obtain ⟨rows, h1, -, -, -⟩ := collate_constraints_original_order c5samples
    exParams c5batch (by decide) (by decide) (by decide)
  have hrows : rows = [[8, 0, 9], [8, 0, 0]] := by
    have hc : c5batch.constraints = some [[8, 0, 9], [8, 0, 0]] := by decide
    rw [h1] at hc
    exact Option.some.inj hc
  rw [hrows] at h1
  exact ⟨h1, by decide⟩

/-- C6: when no sample carries a precomputed previous-output and
`input_feeding` is set, the previous-output rows are built from each sample's
unpadded target by moving its final token to the front, padded to the target
width and reordered by the single `sort_order` permutation. -/
theorem collate_inputFeeding_prevOutput (samples : List Sample)
    (p : CollateParams) (b : Batch) (hne : samples ≠ [])
    (hnoprev : ∀ s ∈ samples, s.prevOutput = none)
    (hfeed : p.inputFeeding = true) (targets : List (List Nat))
    (ht : allOrNone (fun s => s.target) samples = some targets)
    (hb : collate samples p = some b) :
    ∃ rows, b.prevOutputTokens = some rows ∧
      rows = (sortOrderOf p.padIdx samples).map (fun i =>
        padRow p.padIdx p.leftPadTarget (tgtWidth targets p)
          (moveEosRow (targets.getD i []))) := by
  obtain ⟨targets2, prevR, consR, ht2, hprev, hcons, hbc⟩ := collate_some_elim hb
  rw [ht] at ht2
  have htt : targets2 = targets := (Option.some.inj ht2).symm
  subst htt
  subst hbc
  have hlen : targets2.length = samples.length := by
    rw [allOrNone_some (fun s : Sample => s.target) [] ht, List.length_map]
  rcases samples with _ | ⟨s0, rest⟩
  · exact absurd rfl hne
  · simp only [prevPre, hnoprev s0 (List.mem_cons_self s0 rest), hfeed,
      Option.isSome_none, Bool.false_eq_true, if_false, if_true] at hprev
    have hpr : prevR = some (collate_tokens targets2 p.padIdx p.eosIdx
        p.leftPadTarget true (p.padToLength.map (fun q => q.target))
        p.padToMultiple) := (Option.some.inj hprev).symm
    subst hpr
    refine ⟨_, rfl, ?_⟩
    simp only [collate_tokens_moveEos]
    exact indexSelect_map _ targets2 _ [] []
      (fun i hi => hlen ▸ sortOrderOf_mem_lt p.padIdx (s0 :: rest) i hi)

/-- C6 witness: target `[4, 7, 2, 9]` with `eos = 9` yields previous-output
row `[9, 4, 7, 2]`. -/
theorem collate_inputFeeding_prevOutput_witness :
    c6batch.prevOutputTokens = some [[9, 4, 7, 2]] := by
  obtain ⟨rows, h1, h2⟩ := collate_inputFeeding_prevOutput c6samples c6params
    c6batch (by decide) (by decide) rfl [[4, 7, 2, 9]] (by decide) (by decide)
  rw [h1, h2]
  decide

/-- C1: for every batch accepted by `collate`, the computed `sort_order` is a
permutation of `[0, B)` ordering positions by context length descending with
ties in input order, and this single permutation is the one applied to `id`,
context lengths, context tokens, latent tokens, target tokens and
previous-output tokens (when present): row `j` of each field comes from input
example `sort_order[j]`. -/
theorem collate_sortOrder_spec (samples : List Sample) (p : CollateParams)
    (b : Batch) (_hne : samples ≠ []) (hb : collate samples p = some b) :
    (sortOrderOf p.padIdx samples).Perm (List.range samples.length) ∧
    (sortOrderOf p.padIdx samples).Pairwise (fun i j =>
      countNonPad p.padIdx (samples.getD j default).context ≤
        countNonPad p.padIdx (samples.getD i default).context ∧
      (countNonPad p.padIdx (samples.getD i default).context ≤
          countNonPad p.padIdx (samples.getD j default).context → i < j)) ∧
    b.id = (sortOrderOf p.padIdx samples).map
      (fun i => (samples.getD i default).id) ∧
    b.cxtLengths = (sortOrderOf p.padIdx samples).map
      (fun i => countNonPad p.padIdx (samples.getD i default).context) ∧
    b.cxtTokens = (sortOrderOf p.padIdx samples).map (fun i =>
      padRow p.padIdx p.leftPadSource (cxtWidth samples p)
        (samples.getD i default).context) ∧
    b.zTokens = (sortOrderOf p.padIdx samples).map (fun i =>
      padRow p.padIdx p.leftPadSource (zWidth samples p)
        (samples.getD i default).latent) ∧
    (∀ targets, allOrNone (fun s => s.target) samples = some targets →
      b.target = (sortOrderOf p.padIdx samples).map (fun i =>
        padRow p.padIdx p.leftPadTarget (tgtWidth targets p)
          (targets.getD i []))) ∧
    (∀ rows, b.prevOutputTokens = some rows →
      ∃ targets pre, allOrNone (fun s => s.target) samples = some targets ∧
        prevPre samples targets p = some (some pre) ∧
        rows = (sortOrderOf p.padIdx samples).map (fun i => pre.getD i [])) := by
  obtain ⟨targets, prevR, consR, ht, hprev, hcons, hbc⟩ := collate_some_elim hb
  subst hbc
  have hmem := sortOrderOf_mem_lt p.padIdx samples
  refine ⟨sortOrderOf_perm p.padIdx samples, ?_, ?_, ?_, ?_, ?_, ?_, ?_⟩
  · have hkey : ∀ i, i < samples.length →
        (cxtKeys p.padIdx samples).getD i 0 =
          countNonPad p.padIdx (samples.getD i default).context := by
      intro i hi
      rw [cxtKeys]
      exact getD_map_lt (fun s => countNonPad p.padIdx s.context) samples hi 0
        default
    have hpw := argsortDesc_pairwise (cxtKeys p.padIdx samples)
    refine List.Pairwise.imp_of_mem ?_ hpw
    intro i j hi hj hij
    rcases hij with ⟨h1, h2⟩
    rw [hkey i (hmem i hi), hkey j (hmem j hj)] at h1 h2
    exact ⟨h1, h2⟩
  · simp only [collateCore]
    exact indexSelect_map (fun s => s.id) samples _ 0 default hmem
  · simp only [collateCore]
    rw [cxtKeys]
    exact indexSelect_map (fun s => countNonPad p.padIdx s.context) samples _ 0
      default hmem
  · simp only [collateCore]
    rw [collate_tokens_plain, List.map_map]
    exact indexSelect_map _ samples _ [] default hmem
  · simp only [collateCore]
    rw [collate_tokens_plain, List.map_map]
    exact indexSelect_map _ samples _ [] default hmem
  · intro targets2 ht2
    rw [ht] at ht2
    have htt : targets = targets2 := Option.some.inj ht2
    subst htt
    have hlen : targets.length = samples.length := by
      rw [allOrNone_some (fun s : Sample => s.target) [] ht, List.length_map]
    simp only [collateCore]
    rw [collate_tokens_plain]
    exact indexSelect_map _ targets _ [] [] (fun i hi => hlen ▸ hmem i hi)
  · intro rows hrow
    simp only [collateCore] at hrow
    obtain ⟨pre, hpre, hroweq⟩ := Option.map_eq_some'.mp hrow
    subst hpre
    exact ⟨targets, pre, ht, hprev, hroweq.symm⟩

/-- C1 witness: three contexts of non-pad lengths 2, 3, 2 give the stable
descending `sort_order` `[1, 0, 2]` and matching `id` and length rows. -/
theorem collate_sortOrder_spec_witness :
    c1batch.id = [1, 0, 2] ∧ c1batch.cxtLengths = [3, 2, 2] ∧
      (sortOrderOf exParams.padIdx c1samples).Perm (List.range 3) := by
  have h := collate_sortOrder_spec c1samples exParams c1batch (by decide)
    (by decide)
  refine ⟨?_, ?_, h.1⟩
  · rw [h.2.2.1]
    decide
  · rw [h.2.2.2.1]
    decide

/-- C3: with bucketing disabled, `ordered_indices` applies three sequential
full-array stable ascending sorts — by response size, then latent size, then
context size — to the initial (shuffled or identity) permutation; hence the
result is a permutation of `[0, N)` that is primarily ascending in context
size, with latent then response size then prior order breaking ties; and on
sizes `cxt=[3,1,2]`, `z=[9,9,9]`, `res=[5,5,5]` without shuffle it yields
`[1, 2, 0]`. -/
theorem orderedIndices_three_pass_stable (ds : CSDAPairDataset)
    (start : List Nat) (R : Nat → Nat → Prop)
    (hperm : start.Perm (List.range ds.cxt.length))
    (hR : start.Pairwise R) :
    (orderedIndicesFrom ds start).Perm (List.range ds.cxt.length) ∧
    (orderedIndicesFrom ds start).Pairwise (fun a b =>
      ds.cxtSizes.getD a 0 < ds.cxtSizes.getD b 0 ∨
        (ds.cxtSizes.getD a 0 = ds.cxtSizes.getD b 0 ∧
          (ds.zSizes.getD a 0 < ds.zSizes.getD b 0 ∨
            (ds.zSizes.getD a 0 = ds.zSizes.getD b 0 ∧
              (ds.resSizes.getD a 0 < ds.resSizes.getD b 0 ∨
                (ds.resSizes.getD a 0 = ds.resSizes.getD b 0 ∧ R a b)))))) ∧
    List.Sorted (fun a b => a ≤ b)
      ((orderedIndicesFrom ds start).map (fun i => ds.cxtSizes.getD i 0)) ∧
    orderedIndicesFrom c3dataset (List.range 3) = [1, 2, 0] := by
  have pw1 := sortPass_pairwise start ds.resSizes hR
  have pw2 := sortPass_pairwise (sortPass start ds.resSizes) ds.zSizes pw1
  have pw3 := sortPass_pairwise (sortPass (sortPass start ds.resSizes)
    ds.zSizes) ds.cxtSizes pw2
  refine ⟨?_, pw3, ?_, by decide⟩
  · exact ((sortPass_perm _ _).trans ((sortPass_perm _ _).trans
      (sortPass_perm _ _))).trans hperm
  · show ((orderedIndicesFrom ds start).map
      (fun i => ds.cxtSizes.getD i 0)).Pairwise (fun a b => a ≤ b)
    rw [List.pairwise_map]
    refine List.Pairwise.imp ?_ pw3
    intro a b hab
    rcases hab with hlt | ⟨heq, _⟩
    · exact Nat.le_of_lt hlt
    · exact Nat.le_of_eq heq

/-- C3 witness: the three-pass sort at the spec's concrete sizes, started
from the non-identity permutation `[2, 0, 1]`, and the no-shuffle example. -/
theorem orderedIndices_three_pass_stable_witness :
    (orderedIndicesFrom c3dataset [2, 0, 1]).Perm (List.range 3) ∧
      orderedIndicesFrom c3dataset (List.range 3) = [1, 2, 0] := by
  have h := orderedIndices_three_pass_stable c3dataset [2, 0, 1]
    (fun _ _ => True) (by decide) (by simp)
  exact ⟨h.1, h.2.2.2⟩

end CSDA
